import Mathlib

/-!
# Verification of the plot-request dispatcher of `plot_regression.py`

A shallow embedding of the plotting utility `src/plotting_scripts/plot_regression.py`
(Model_Builder_Tool). Python floats are modelled as rationals (`ℚ`), Python ints as `ℤ`,
pandas dataframes as association lists from column name to a column of rationals, and
operations that raise a Python exception as `Option`-valued functions returning `none`.

Definitions are translated from the source file; each definition's doc comment names the
source function and lines it embeds.
-/

namespace PlotRegression

/-- A circle drawing primitive: `plt.Circle((cx, cy), r)`. -/
structure Circle where
  cx : ℚ
  cy : ℚ
  r : ℚ
  deriving DecidableEq, Repr

/-- A line-segment drawing primitive: `plt.Line2D([x1, x2], [y1, y2])`. -/
structure Segment where
  x1 : ℚ
  y1 : ℚ
  x2 : ℚ
  y2 : ℚ
  deriving DecidableEq, Repr

/-- Maximum of a list of integers; the guard for Python's `max(list)`, which raises on an
empty list, is placed at the call sites (`drawNeuralNet` returns `none` there). -/
def listMaxD : List ℤ → ℤ
  | [] => 0
  | [x] => x
  | x :: y :: rest => max x (listMaxD (y :: rest))

/-- Minimum of a list of rationals (pandas `Series.min()` on a nonempty series). -/
def listMinDQ : List ℚ → ℚ
  | [] => 0
  | [x] => x
  | x :: y :: rest => min x (listMinDQ (y :: rest))

/-- Maximum of a list of rationals (pandas `Series.max()` on a nonempty series). -/
def listMaxDQ : List ℚ → ℚ
  | [] => 0
  | [x] => x
  | x :: y :: rest => max x (listMaxDQ (y :: rest))

theorem le_listMaxD {l : List ℤ} {x : ℤ} (hx : x ∈ l) : x ≤ listMaxD l := by
  induction l with
  | nil => cases hx
  | cons a rest ih =>
    cases rest with
    | nil =>
      rcases List.mem_singleton.mp hx with rfl
      simp [listMaxD]
    | cons b t =>
      rcases List.mem_cons.mp hx with rfl | hmem
      · simp [listMaxD]
      · exact le_trans (ih hmem) (by simp [listMaxD])

theorem listMaxD_mem {l : List ℤ} (hl : l ≠ []) : listMaxD l ∈ l := by
  induction l with
  | nil => exact absurd rfl hl
  | cons a rest ih =>
    cases rest with
    | nil => simp [listMaxD]
    | cons b t =>
      rw [listMaxD]
      rcases max_choice a (listMaxD (b :: t)) with h | h
      · rw [h]; exact List.mem_cons_self _ _
      · rw [h]; exact List.mem_cons_of_mem _ (ih (by simp))

theorem listMinDQ_le {l : List ℚ} {x : ℚ} (hx : x ∈ l) : listMinDQ l ≤ x := by
  induction l with
  | nil => cases hx
  | cons a rest ih =>
    cases rest with
    | nil =>
      rcases List.mem_singleton.mp hx with rfl
      simp [listMinDQ]
    | cons b t =>
      rcases List.mem_cons.mp hx with rfl | hmem
      · simp [listMinDQ]
      · exact le_trans (by simp [listMinDQ]) (ih hmem)

theorem listMinDQ_mem {l : List ℚ} (hl : l ≠ []) : listMinDQ l ∈ l := by
  induction l with
  | nil => exact absurd rfl hl
  | cons a rest ih =>
    cases rest with
    | nil => simp [listMinDQ]
    | cons b t =>
      rw [listMinDQ]
      rcases min_choice a (listMinDQ (b :: t)) with h | h
      · rw [h]; exact List.mem_cons_self _ _
      · rw [h]; exact List.mem_cons_of_mem _ (ih (by simp))

theorem le_listMaxDQ {l : List ℚ} {x : ℚ} (hx : x ∈ l) : x ≤ listMaxDQ l := by
  induction l with
  | nil => cases hx
  | cons a rest ih =>
    cases rest with
    | nil =>
      rcases List.mem_singleton.mp hx with rfl
      simp [listMaxDQ]
    | cons b t =>
      rcases List.mem_cons.mp hx with rfl | hmem
      · simp [listMaxDQ]
      · exact le_trans (ih hmem) (by simp [listMaxDQ])

theorem listMaxDQ_mem {l : List ℚ} (hl : l ≠ []) : listMaxDQ l ∈ l := by
  induction l with
  | nil => exact absurd rfl hl
  | cons a rest ih =>
    cases rest with
    | nil => simp [listMaxDQ]
    | cons b t =>
      rw [listMaxDQ]
      rcases max_choice a (listMaxDQ (b :: t)) with h | h
      · rw [h]; exact List.mem_cons_self _ _
      · rw [h]; exact List.mem_cons_of_mem _ (ih (by simp))

/-! ## Neural-network architecture layout (`draw_neural_net`, lines 199-221) -/

/-- `v_spacing = (top - bottom) / float(max(layer_sizes))` (line 202). -/
def vSpacing (bottom top : ℚ) (layer_sizes : List ℤ) : ℚ :=
  (top - bottom) / ((listMaxD layer_sizes : ℤ) : ℚ)

/-- `h_spacing = (right - left) / float(n_layers - 1)` (line 203). -/
def hSpacing (left right : ℚ) (layer_sizes : List ℤ) : ℚ :=
  (right - left) / ((layer_sizes.length : ℚ) - 1)

/-- `layer_top = v_spacing * (layer_size - 1) / 2. + (top + bottom) / 2.` (lines 207, 215-216). -/
def layerTop (v bottom top : ℚ) (layer_size : ℤ) : ℚ :=
  v * ((layer_size : ℚ) - 1) / 2 + (top + bottom) / 2

/-- The circle drawn for node `m` of layer `n` (of size `s`):
`plt.Circle((n * h_spacing + left, layer_top - m * v_spacing), v_spacing / 4.)` (line 209). -/
def nodeCircle (left h v bottom top : ℚ) (n : ℕ) (s : ℤ) (m : ℕ) : Circle :=
  ⟨(n : ℚ) * h + left, layerTop v bottom top s - (m : ℚ) * v, v / 4⟩

/-- The node loop of `draw_neural_net` (lines 206-211): for each `(n, layer_size)` in
`enumerate(layer_sizes)`, one circle per `m in range(layer_size)`. -/
def nnCircles (left h v bottom top : ℚ) (layer_sizes : List ℤ) : List Circle :=
  layer_sizes.enum.flatMap fun p =>
    (List.range p.2.toNat).map fun m => nodeCircle left h v bottom top p.1 p.2 m

/-- The segment drawn between node `m` of layer `n` (of size `a`) and node `o` of layer
`n + 1` (of size `b`): `plt.Line2D([n * h_spacing + left, (n + 1) * h_spacing + left],
[layer_top_a - m * v_spacing, layer_top_b - o * v_spacing])` (lines 219-220). -/
def nodeSeg (left h v bottom top : ℚ) (n : ℕ) (a b : ℤ) (m o : ℕ) : Segment :=
  ⟨(n : ℚ) * h + left, layerTop v bottom top a - (m : ℚ) * v,
   ((n : ℚ) + 1) * h + left, layerTop v bottom top b - (o : ℚ) * v⟩

/-- The edge loop of `draw_neural_net` (lines 214-221): for each adjacent pair
`(layer_size_a, layer_size_b)` in `zip(layer_sizes[:-1], layer_sizes[1:])`, one segment for
every `m in range(layer_size_a)` and `o in range(layer_size_b)`. -/
def nnEdges (left h v bottom top : ℚ) (layer_sizes : List ℤ) : List Segment :=
  ((layer_sizes.zip layer_sizes.tail).enum).flatMap fun p =>
    (List.range p.2.1.toNat).flatMap fun m =>
      (List.range p.2.2.toNat).map fun o => nodeSeg left h v bottom top p.1 p.2.1 p.2.2 m o

/-- `draw_neural_net(ax, left, right, bottom, top, layer_sizes)` (lines 199-221), as the list
of drawing primitives it adds to the axis.  `none` models a raised exception:
`max([])` raises `ValueError` on an empty list; the divisions on lines 202-203 raise
`ZeroDivisionError` when `max(layer_sizes) == 0` or `n_layers == 1` (Python float division
by `0.0` raises regardless of the numerator). -/
def drawNeuralNet (left right bottom top : ℚ) (layer_sizes : List ℤ) :
    Option (List Circle × List Segment) :=
  if layer_sizes = [] then none
  else if listMaxD layer_sizes = 0 then none
  else if layer_sizes.length = 1 then none
  else
    let v := vSpacing bottom top layer_sizes
    let h := hSpacing left right layer_sizes
    some (nnCircles left h v bottom top layer_sizes, nnEdges left h v bottom top layer_sizes)

theorem nnCircles_length (left h v bottom top : ℚ) (ls : List ℤ) :
    (nnCircles left h v bottom top ls).length = (ls.map Int.toNat).sum := by
  rw [nnCircles, List.length_flatMap]
  have h1 : ls.enum.map (List.length ∘ fun p =>
      (List.range p.2.toNat).map fun m => nodeCircle left h v bottom top p.1 p.2 m) =
      ls.enum.map (fun p => p.2.toNat) := by
    apply List.map_congr_left
    intro p _
    simp
  rw [h1]
  have h2 : ls.enum.map (fun p => p.2.toNat) = ls.map Int.toNat := by
    have := congrArg (List.map Int.toNat) (List.enum_map_snd ls)
    rwa [List.map_map] at this
  rw [h2]

theorem nnEdges_length (left h v bottom top : ℚ) (ls : List ℤ) :
    (nnEdges left h v bottom top ls).length =
      ((ls.zip ls.tail).map (fun p => (p.1.toNat * p.2.toNat : ℕ))).sum := by
  rw [nnEdges, List.length_flatMap]
  have h1 : (ls.zip ls.tail).enum.map (List.length ∘ fun p =>
      (List.range p.2.1.toNat).flatMap fun m =>
        (List.range p.2.2.toNat).map fun o => nodeSeg left h v bottom top p.1 p.2.1 p.2.2 m o) =
      (ls.zip ls.tail).enum.map (fun p => (p.2.1.toNat * p.2.2.toNat : ℕ)) := by
    apply List.map_congr_left
    intro p _
    simp only [Function.comp_apply, List.length_flatMap, List.map_map]
    have h3 : (List.range p.2.1.toNat).map (List.length ∘ fun m =>
        (List.range p.2.2.toNat).map fun o => nodeSeg left h v bottom top p.1 p.2.1 p.2.2 m o) =
        (List.range p.2.1.toNat).map (fun _ => p.2.2.toNat) := by
      apply List.map_congr_left
      intro m _
      simp
    rw [h3, List.map_const', List.sum_replicate, List.length_range, smul_eq_mul]
  rw [h1]
  have h2 : (ls.zip ls.tail).enum.map (fun p => (p.2.1.toNat * p.2.2.toNat : ℕ)) =
      (ls.zip ls.tail).map (fun p => (p.1.toNat * p.2.toNat : ℕ)) := by
    have := congrArg (List.map (fun (p : ℤ × ℤ) => (p.1.toNat * p.2.toNat : ℕ)))
      (List.enum_map_snd (ls.zip ls.tail))
    rwa [List.map_map] at this
  rw [h2]

theorem mem_nnCircles (left h v bottom top : ℚ) (ls : List ℤ) (c : Circle) :
    c ∈ nnCircles left h v bottom top ls ↔
      ∃ (n : ℕ) (s : ℤ) (m : ℕ),
        ls[n]? = some s ∧ m < s.toNat ∧ c = nodeCircle left h v bottom top n s m := by
  rw [nnCircles]
  simp only [List.mem_flatMap, List.mem_map, List.mem_range, List.mem_enum_iff_getElem?]
  constructor
  · rintro ⟨⟨n, s⟩, hget, m, hm, rfl⟩
    exact ⟨n, s, m, hget, hm, rfl⟩
  · rintro ⟨n, s, m, hget, hm, rfl⟩
    exact ⟨⟨n, s⟩, hget, m, hm, rfl⟩

theorem mem_nnEdges (left h v bottom top : ℚ) (ls : List ℤ) (e : Segment) :
    e ∈ nnEdges left h v bottom top ls ↔
      ∃ (n : ℕ) (a b : ℤ) (m o : ℕ),
        ls[n]? = some a ∧ ls[n + 1]? = some b ∧ m < a.toNat ∧ o < b.toNat ∧
        e = nodeSeg left h v bottom top n a b m o := by
  rw [nnEdges]
  simp only [List.mem_flatMap, List.mem_map, List.mem_range, List.mem_enum_iff_getElem?,
    List.getElem?_zip_eq_some]
  constructor
  · rintro ⟨⟨n, a, b⟩, ⟨ha, hb⟩, m, hm, o, ho, rfl⟩
    rw [List.getElem?_tail] at hb
    exact ⟨n, a, b, m, o, ha, hb, hm, ho, rfl⟩
  · rintro ⟨n, a, b, m, o, ha, hb, hm, ho, rfl⟩
    rw [← List.getElem?_tail] at hb
    exact ⟨⟨n, a, b⟩, ⟨ha, hb⟩, m, hm, o, ho, rfl⟩

/-- When every layer size is nonnegative, the natural-number node count agrees with the
integer sum of the layer sizes. -/
theorem sum_map_toNat (ls : List ℤ) (hpos : ∀ s ∈ ls, 0 ≤ s) :
    ((ls.map Int.toNat).sum : ℤ) = ls.sum := by
  induction ls with
  | nil => simp
  | cons a rest ih =>
    simp only [List.map_cons, List.sum_cons, Nat.cast_add]
    rw [Int.toNat_of_nonneg (hpos a (List.mem_cons_self _ _)),
      ih (fun s hs => hpos s (List.mem_cons_of_mem _ hs))]

theorem sum_map_toNat_mul_pairs (l : List (ℤ × ℤ)) (hpos : ∀ p ∈ l, 0 ≤ p.1 ∧ 0 ≤ p.2) :
    ((l.map (fun p => (p.1.toNat * p.2.toNat : ℕ))).sum : ℤ) =
      (l.map (fun p => p.1 * p.2)).sum := by
  induction l with
  | nil => simp
  | cons a rest ih =>
    simp only [List.map_cons, List.sum_cons, Nat.cast_add, Nat.cast_mul]
    rw [Int.toNat_of_nonneg (hpos a (List.mem_cons_self _ _)).1,
      Int.toNat_of_nonneg (hpos a (List.mem_cons_self _ _)).2,
      ih (fun p hp => hpos p (List.mem_cons_of_mem _ hp))]

theorem sum_map_toNat_mul (ls : List ℤ) (hpos : ∀ s ∈ ls, 0 ≤ s) :
    (((ls.zip ls.tail).map (fun p => (p.1.toNat * p.2.toNat : ℕ))).sum : ℤ) =
      ((ls.zip ls.tail).map (fun p => p.1 * p.2)).sum := by
  apply sum_map_toNat_mul_pairs
  rintro ⟨a, b⟩ hp
  obtain ⟨ha, hb⟩ := List.of_mem_zip hp
  exact ⟨hpos a ha, hpos b (List.mem_of_mem_tail hb)⟩

/-- With at least two layers whose sizes are all positive, none of the guarded exceptional
cases of `draw_neural_net` fires, and the full primitive lists are produced. -/
theorem drawNeuralNet_eq_some (left right bottom top : ℚ) (ls : List ℤ)
    (hL : 2 ≤ ls.length) (hpos : ∀ s ∈ ls, 1 ≤ s) :
    drawNeuralNet left right bottom top ls =
      some (nnCircles left (hSpacing left right ls) (vSpacing bottom top ls) bottom top ls,
            nnEdges left (hSpacing left right ls) (vSpacing bottom top ls) bottom top ls) := by
  have hne : ls ≠ [] := by
    intro hemp
    rw [hemp] at hL
    simp at hL
  have hmax1 : (1 : ℤ) ≤ listMaxD ls := hpos _ (listMaxD_mem hne)
  rw [drawNeuralNet, if_neg hne, if_neg (by omega), if_neg (by omega)]

theorem nnCircle_in_box (left right bottom top : ℚ) (ls : List ℤ)
    (hL : 2 ≤ ls.length) (hpos : ∀ s ∈ ls, 1 ≤ s)
    (hlr : left < right) (hbt : bottom < top) {c : Circle}
    (hc : c ∈ nnCircles left (hSpacing left right ls) (vSpacing bottom top ls) bottom top ls) :
    left ≤ c.cx ∧ c.cx ≤ right ∧ bottom ≤ c.cy ∧ c.cy ≤ top := by
  obtain ⟨n, s, m, hget, hm, rfl⟩ := (mem_nnCircles _ _ _ _ _ _ _).mp hc
  obtain ⟨hn, -⟩ := List.getElem?_eq_some_iff.mp hget
  have hs_mem : s ∈ ls := List.getElem?_mem hget
  have hs1 : (1 : ℤ) ≤ s := hpos s hs_mem
  have hsmax : s ≤ listMaxD ls := le_listMaxD hs_mem
  have hmax1 : (1 : ℤ) ≤ listMaxD ls := le_trans hs1 hsmax
  have hmxpos : (0 : ℚ) < ((listMaxD ls : ℤ) : ℚ) := by exact_mod_cast lt_of_lt_of_le Int.zero_lt_one hmax1
  have hvpos : 0 < vSpacing bottom top ls := div_pos (by linarith) hmxpos
  have hvmul : vSpacing bottom top ls * ((listMaxD ls : ℤ) : ℚ) = top - bottom :=
    div_mul_cancel₀ _ (ne_of_gt hmxpos)
  have hL1 : (2 : ℚ) ≤ (ls.length : ℚ) := by exact_mod_cast hL
  have hhpos : 0 < hSpacing left right ls := div_pos (by linarith) (by linarith)
  have hhmul : hSpacing left right ls * ((ls.length : ℚ) - 1) = right - left :=
    div_mul_cancel₀ _ (by linarith)
  have hnle : (n : ℚ) ≤ (ls.length : ℚ) - 1 := by
    have h1 : n + 1 ≤ ls.length := hn
    have h2 : ((n : ℕ) : ℚ) + 1 ≤ (ls.length : ℚ) := by exact_mod_cast h1
    linarith
  have hsq : ((s : ℤ) : ℚ) ≤ ((listMaxD ls : ℤ) : ℚ) := by exact_mod_cast hsmax
  have hs1q : (1 : ℚ) ≤ ((s : ℤ) : ℚ) := by exact_mod_cast hs1
  have hmq : ((m : ℕ) : ℚ) + 1 ≤ ((s : ℤ) : ℚ) := by
    have h1 : m + 1 ≤ s.toNat := hm
    have h2 : ((m : ℕ) : ℤ) + 1 ≤ ((s.toNat : ℕ) : ℤ) := by exact_mod_cast h1
    rw [Int.toNat_of_nonneg (by linarith : (0 : ℤ) ≤ s)] at h2
    exact_mod_cast h2
  have hm0 : (0 : ℚ) ≤ ((m : ℕ) : ℚ) := Nat.cast_nonneg m
  have hn0 : (0 : ℚ) ≤ ((n : ℕ) : ℚ) := Nat.cast_nonneg n
  refine ⟨?_, ?_, ?_, ?_⟩
  · simp only [nodeCircle]
    nlinarith [mul_nonneg hn0 hhpos.le]
  · simp only [nodeCircle]
    nlinarith [mul_le_mul_of_nonneg_right hnle hhpos.le]
  · simp only [nodeCircle, layerTop]
    nlinarith [mul_le_mul_of_nonneg_right (by linarith : ((m : ℕ) : ℚ) ≤ ((s : ℤ) : ℚ) - 1) hvpos.le,
      mul_le_mul_of_nonneg_left (by linarith : ((s : ℤ) : ℚ) - 1 ≤ ((listMaxD ls : ℤ) : ℚ) - 1) hvpos.le]
  · simp only [nodeCircle, layerTop]
    nlinarith [mul_nonneg hm0 hvpos.le,
      mul_le_mul_of_nonneg_left (by linarith : ((s : ℤ) : ℚ) - 1 ≤ ((listMaxD ls : ℤ) : ℚ) - 1) hvpos.le]

/-- The two endpoints of a drawn edge are exactly the centers of the two node circles it
connects (definitional unfolding plus a cast computation). -/
theorem nodeSeg_endpoints (left h v bottom top : ℚ) (n : ℕ) (a b : ℤ) (m o : ℕ) :
    (nodeSeg left h v bottom top n a b m o).x1 = (nodeCircle left h v bottom top n a m).cx ∧
    (nodeSeg left h v bottom top n a b m o).y1 = (nodeCircle left h v bottom top n a m).cy ∧
    (nodeSeg left h v bottom top n a b m o).x2 = (nodeCircle left h v bottom top (n + 1) b o).cx ∧
    (nodeSeg left h v bottom top n a b m o).y2 = (nodeCircle left h v bottom top (n + 1) b o).cy := by
  refine ⟨rfl, rfl, ?_, rfl⟩
  simp only [nodeSeg, nodeCircle]
  push_cast
  ring

/-- C1: for every layer-size sequence of length `L ≥ 2` with every entry `≥ 1` and every
bounding box with `left < right` and `bottom < top`, `draw_neural_net` emits exactly
`Σ sᵢ` circles and exactly `Σ sᵢ·sᵢ₊₁` straight edges; every edge connects a node of some
layer `n` to a node of layer `n + 1` (and every such adjacent node pair is connected), and
every circle's center lies within the bounding box. -/
theorem draw_neural_net_counts_edges_and_box (ls : List ℤ) (left right bottom top : ℚ)
    (hL : 2 ≤ ls.length) (hpos : ∀ s ∈ ls, 1 ≤ s)
    (hlr : left < right) (hbt : bottom < top) :
    ∃ cs es, drawNeuralNet left right bottom top ls = some (cs, es) ∧
      ((cs.length : ℤ) = ls.sum) ∧
      ((es.length : ℤ) = ((ls.zip ls.tail).map fun p => p.1 * p.2).sum) ∧
      (∀ c ∈ cs, left ≤ c.cx ∧ c.cx ≤ right ∧ bottom ≤ c.cy ∧ c.cy ≤ top) ∧
      (∀ e ∈ es, ∃ (n : ℕ) (a b : ℤ) (m o : ℕ),
        ls[n]? = some a ∧ ls[n + 1]? = some b ∧ m < a.toNat ∧ o < b.toNat ∧
        e.x1 = (nodeCircle left (hSpacing left right ls) (vSpacing bottom top ls) bottom top n a m).cx ∧
        e.y1 = (nodeCircle left (hSpacing left right ls) (vSpacing bottom top ls) bottom top n a m).cy ∧
        e.x2 = (nodeCircle left (hSpacing left right ls) (vSpacing bottom top ls) bottom top (n + 1) b o).cx ∧
        e.y2 = (nodeCircle left (hSpacing left right ls) (vSpacing bottom top ls) bottom top (n + 1) b o).cy) ∧
      (∀ (n : ℕ) (a b : ℤ) (m o : ℕ),
        ls[n]? = some a → ls[n + 1]? = some b → m < a.toNat → o < b.toNat →
        nodeSeg left (hSpacing left right ls) (vSpacing bottom top ls) bottom top n a b m o ∈ es) := by
  refine ⟨_, _, drawNeuralNet_eq_some left right bottom top ls hL hpos, ?_, ?_, ?_, ?_, ?_⟩
  · rw [nnCircles_length, sum_map_toNat ls (fun s hs => le_trans zero_le_one (hpos s hs))]
  · rw [nnEdges_length, sum_map_toNat_mul ls (fun s hs => le_trans zero_le_one (hpos s hs))]
  · intro c hc
    exact nnCircle_in_box left right bottom top ls hL hpos hlr hbt hc
  · intro e he
    obtain ⟨n, a, b, m, o, ha, hb, hm, ho, rfl⟩ := (mem_nnEdges _ _ _ _ _ _ _).mp he
    obtain ⟨h1, h2, h3, h4⟩ := nodeSeg_endpoints left (hSpacing left right ls)
      (vSpacing bottom top ls) bottom top n a b m o
    exact ⟨n, a, b, m, o, ha, hb, hm, ho, h1, h2, h3, h4⟩
  · intro n a b m o ha hb hm ho
    exact (mem_nnEdges _ _ _ _ _ _ _).mpr ⟨n, a, b, m, o, ha, hb, hm, ho, rfl⟩

/-- Witness for `draw_neural_net_counts_edges_and_box` at the end-to-end scenario
`layer_sizes = [3, 5, 2]` in the unit box: `3 + 5 + 2 = 10` nodes and
`3·5 + 5·2 = 25` edges. -/
theorem draw_neural_net_counts_witness :
    (2 ≤ ([3, 5, 2] : List ℤ).length) ∧
    ∃ cs es, drawNeuralNet 0 1 0 1 ([3, 5, 2] : List ℤ) = some (cs, es) ∧
      cs.length = 10 ∧ es.length = 25 := by
  refine ⟨by decide, ?_⟩
  obtain ⟨cs, es, heq, hcs, hes, -, -, -⟩ :=
    draw_neural_net_counts_edges_and_box ([3, 5, 2] : List ℤ) 0 1 0 1
      (by decide) (by decide) (by norm_num) (by norm_num)
  refine ⟨cs, es, heq, ?_, ?_⟩
  · have : (cs.length : ℤ) = 10 := by rw [hcs]; decide
    exact_mod_cast this
  · have : (es.length : ℤ) = 25 := by rw [hes]; decide
    exact_mod_cast this

/-- C4: for every valid layer-size sequence (length `≥ 2`, entries `≥ 1`), the layout places
node `m` (0-based) of layer `n` (0-based, size `s`) at `x = left + n·hSpacing` and
`y = layerTop − m·vSpacing` with radius `vSpacing / 4`, where
`vSpacing = (top − bottom) / max(layerSizes)`, `hSpacing = (right − left) / (L − 1)` and
`layerTop = vSpacing·(s − 1)/2 + (top + bottom)/2` — and nothing else is drawn as a node.
The embedding `drawNeuralNet` is a Lean function of the layer sizes and the bounding box
alone, so the result is identical on every invocation with the same input. -/
theorem draw_neural_net_node_positions (ls : List ℤ) (left right bottom top : ℚ)
    (hL : 2 ≤ ls.length) (hpos : ∀ s ∈ ls, 1 ≤ s) :
    ∃ cs es, drawNeuralNet left right bottom top ls = some (cs, es) ∧
      ∀ c : Circle, c ∈ cs ↔ ∃ (n : ℕ) (s : ℤ) (m : ℕ),
        ls[n]? = some s ∧ m < s.toNat ∧
        c.cx = left + (n : ℚ) * hSpacing left right ls ∧
        c.cy = (vSpacing bottom top ls * ((s : ℚ) - 1) / 2 + (top + bottom) / 2)
          - (m : ℚ) * vSpacing bottom top ls ∧
        c.r = vSpacing bottom top ls / 4 := by
  refine ⟨_, _, drawNeuralNet_eq_some left right bottom top ls hL hpos, ?_⟩
  intro c
  rw [mem_nnCircles]
  constructor
  · rintro ⟨n, s, m, hget, hm, rfl⟩
    exact ⟨n, s, m, hget, hm, by simp [nodeCircle, layerTop]; ring, rfl, rfl⟩
  · rintro ⟨n, s, m, hget, hm, hx, hy, hr⟩
    refine ⟨n, s, m, hget, hm, ?_⟩
    obtain ⟨cx, cy, r⟩ := c
    simp only [nodeCircle, layerTop, Circle.mk.injEq] at *
    exact ⟨by rw [hx]; ring, by rw [hy], hr⟩

/-- Witness for `draw_neural_net_node_positions` with `layer_sizes = [3, 5, 2]` in the unit
box: `vSpacing = 1/5`, `hSpacing = 1/2`, and node `0` of layer `0` is the circle with center
`(0, 7/10)` and radius `1/20`. -/
theorem draw_neural_net_node_positions_witness :
    ∃ cs es, drawNeuralNet 0 1 0 1 ([3, 5, 2] : List ℤ) = some (cs, es) ∧
      (⟨0, 7/10, 1/20⟩ : Circle) ∈ cs := by
  obtain ⟨cs, es, heq, hchar⟩ :=
    draw_neural_net_node_positions ([3, 5, 2] : List ℤ) 0 1 0 1 (by decide) (by decide)
  refine ⟨cs, es, heq, (hchar _).mpr ⟨0, 3, 0, by decide, by decide, ?_, ?_, ?_⟩⟩
  all_goals simp [hSpacing, vSpacing, listMaxD] <;> norm_num

/-! ## Datasets (`pd.read_csv` output, as consumed by the renderers) -/

/-- A pandas dataframe restricted to what the renderers read: an ordered association list
from column name to a column of rational values. -/
structure Table where
  cols : List (String × List ℚ)
  deriving DecidableEq, Repr

/-- Column access `data[name]`; `none` models a missing column (a `KeyError` in Python,
always guarded by a containment check in this program). -/
def Table.getCol (t : Table) (name : String) : Option (List ℚ) :=
  (t.cols.find? fun p => p.1 == name).map Prod.snd

/-- The containment check `name in data.columns`. -/
def Table.hasCol (t : Table) (name : String) : Bool :=
  (t.cols.find? fun p => p.1 == name).isSome

theorem hasCol_false_iff (t : Table) (name : String) :
    t.hasCol name = false ↔ t.getCol name = none := by
  rw [Table.hasCol, Table.getCol]
  cases t.cols.find? fun p => p.1 == name <;> simp

theorem hasCol_true_iff (t : Table) (name : String) :
    t.hasCol name = true ↔ ∃ c, t.getCol name = some c := by
  rw [Table.hasCol, Table.getCol]
  cases t.cols.find? fun p => p.1 == name <;> simp

/-! ## Renderer: residual (`create_residual_plot`, lines 147-174) -/

/-- Outcome of `create_residual_plot`: the `(predicted, residual)` points passed to
`plt.scatter`, whether the missing-columns diagnostic was printed to stderr (line 163), and
whether the figure was saved.  `plt.savefig` (line 173) sits outside the column checks, so
the figure is saved on every path, and no path raises. -/
structure ResidualOutcome where
  points : List (ℚ × ℚ)
  errorPrinted : Bool
  saved : Bool
  deriving DecidableEq, Repr

/-- `create_residual_plot(data, ...)`: if `predicted` and `residual` are both present they
are scattered directly (line 152-155); otherwise, if `actual` and `predicted` are present,
an in-memory `residual` column is derived as `actual - predicted` (line 159, pandas
elementwise subtraction) and scattered; otherwise the diagnostic is printed (line 163).
The plot is saved in all three cases (line 173). -/
def create_residual_plot (data : Table) : ResidualOutcome :=
  match data.getCol "predicted", data.getCol "residual" with
  | some p, some r => ⟨p.zip r, false, true⟩
  | _, _ =>
    match data.getCol "actual", data.getCol "predicted" with
    | some a, some p => ⟨p.zip (a.zipWith (· - ·) p), false, true⟩
    | _, _ => ⟨[], true, true⟩

/-- Observable process outcome of one `main` invocation (lines 299-357). -/
structure ProcResult where
  exitCode : ℕ
  outputWritten : Bool
  stderrDiagnostic : Bool
  deriving DecidableEq, Repr

/-- The `residual` branch of `main` (lines 324-325, 352-357): `create_residual_plot` raises
on no input, so the `except` handler is never reached; `main` prints the confirmation and
calls `sys.exit(0)` with the output file already written. -/
def runResidualRequest (data : Table) : ProcResult :=
  let o := create_residual_plot data
  ⟨0, o.saved, o.errorPrinted⟩

/-! ## Renderer: timeseries (`create_timeseries_plot`, lines 78-104) -/

/-- Outcome of `create_timeseries_plot`: the labelled series passed to `plt.plot`, and
whether the figure was saved. -/
structure TimeseriesOutcome where
  series : List (String × List ℚ)
  saved : Bool
  deriving DecidableEq, Repr

/-- `create_timeseries_plot(data, ...)`: plots `data['actual']` when that column is present
(lines 83, 87-88), then `data['predicted']` when present (lines 84, 89-90), and always saves
the figure (line 103) — no branch raises, even when both columns are absent. -/
def create_timeseries_plot (data : Table) : TimeseriesOutcome :=
  let s1 := match data.getCol "actual" with
    | some a => [("Actual", a)]
    | none => []
  let s2 := match data.getCol "predicted" with
    | some p => [("Predicted", p)]
    | none => []
  ⟨s1 ++ s2, true⟩

/-- The `timeseries` branch of `main` (lines 321-322, 352-357): the renderer never raises,
so the process always reports success. -/
def runTimeseriesRequest (data : Table) : ProcResult :=
  let o := create_timeseries_plot data
  ⟨0, o.saved, false⟩

/-- A dataset with none of the `residual`, `actual`, `predicted` columns. -/
def tNoColumns : Table := ⟨[("x", [1, 2])]⟩

/-- C2 (counterexample): a residual request on a dataset lacking `residual` and the
`actual`/`predicted` pair does NOT exit with code 1 and DOES create the output file:
`create_residual_plot` prints the diagnostic (line 163) but then falls through to
`plt.savefig` (line 173), and `main` reaches `sys.exit(0)` (line 353).  This refutes the
claimed exit code 1 and the claimed absence of an output file. -/
theorem residual_missing_columns_counterexample :
    tNoColumns.hasCol "residual" = false ∧
    tNoColumns.hasCol "actual" = false ∧
    tNoColumns.hasCol "predicted" = false ∧
    (runResidualRequest tNoColumns).exitCode = 0 ∧
    (runResidualRequest tNoColumns).outputWritten = true := by
  decide

/-- C2 (amended): for every residual request whose dataset lacks the `residual` column and
also lacks the `actual`/`predicted` pair, the program prints a missing-columns diagnostic on
the error stream, but it still writes the output file (a residual plot with no points) and
exits with code 0. -/
theorem residual_missing_columns_soft_failure (t : Table)
    (hres : t.hasCol "residual" = false)
    (hap : t.hasCol "actual" = false ∨ t.hasCol "predicted" = false) :
    (create_residual_plot t).points = [] ∧
    runResidualRequest t = ⟨0, true, true⟩ := by
  have hresN : t.getCol "residual" = none := (hasCol_false_iff t "residual").mp hres
  have hout : create_residual_plot t = ⟨[], true, true⟩ := by
    rcases hap with hA | hP
    · have hAN : t.getCol "actual" = none := (hasCol_false_iff t "actual").mp hA
      rw [create_residual_plot, hresN, hAN]
      cases t.getCol "predicted" <;> rfl
    · have hPN : t.getCol "predicted" = none := (hasCol_false_iff t "predicted").mp hP
      rw [create_residual_plot, hresN, hPN]
      cases t.getCol "actual" <;> rfl
  rw [runResidualRequest, hout]
  exact ⟨rfl, rfl⟩

/-- Witness for `residual_missing_columns_soft_failure` on a dataset with a lone
`predicted` column. -/
theorem residual_missing_columns_soft_failure_witness :
    (Table.mk [("predicted", [1, 2])]).hasCol "residual" = false ∧
    runResidualRequest (Table.mk [("predicted", [1, 2])]) = ⟨0, true, true⟩ :=
  ⟨by decide,
   (residual_missing_columns_soft_failure (Table.mk [("predicted", [1, 2])]) (by decide)
     (Or.inl (by decide))).2⟩

/-- C9: when the dataset lacks a `residual` column but has both `actual` and `predicted`,
the derived residual used for every row equals that row's `actual` minus its `predicted`
value, exactly: the scattered point at row `i` is `(predicted_i, actual_i - predicted_i)`,
and no diagnostic is printed. -/
theorem residual_derived_per_row (t : Table) (a p : List ℚ)
    (hres : t.hasCol "residual" = false)
    (ha : t.getCol "actual" = some a) (hp : t.getCol "predicted" = some p) :
    (create_residual_plot t).points = p.zip (a.zipWith (· - ·) p) ∧
    (create_residual_plot t).errorPrinted = false ∧
    ∀ (i : ℕ) (x y : ℚ), a[i]? = some x → p[i]? = some y →
      (create_residual_plot t).points[i]? = some (y, x - y) := by
  have hresN : t.getCol "residual" = none := (hasCol_false_iff t "residual").mp hres
  have hout : create_residual_plot t = ⟨p.zip (a.zipWith (· - ·) p), false, true⟩ := by
    rw [create_residual_plot, hresN, ha, hp]
  refine ⟨by rw [hout], by rw [hout], ?_⟩
  intro i x y hx hy
  rw [hout]
  apply List.getElem?_zip_eq_some.mpr
  refine ⟨hy, ?_⟩
  rw [List.getElem?_zipWith, hx, hy]

/-- Witness for `residual_derived_per_row`: `actual = [3, 5]`, `predicted = [1, 2]` gives the
points `(1, 2)` and `(2, 3)`. -/
theorem residual_derived_per_row_witness :
    (create_residual_plot (Table.mk [("actual", [3, 5]), ("predicted", [1, 2])])).points[0]? =
      some (1, 2) ∧
    (create_residual_plot (Table.mk [("actual", [3, 5]), ("predicted", [1, 2])])).points[1]? =
      some (2, 3) := by
  have h := residual_derived_per_row (Table.mk [("actual", [3, 5]), ("predicted", [1, 2])])
    [3, 5] [1, 2] (by decide) (by decide) (by decide)
  constructor
  · have := h.2.2 0 3 1 (by decide) (by decide)
    norm_num at this
    exact this
  · have := h.2.2 1 5 2 (by decide) (by decide)
    norm_num at this
    exact this

/-- C6 (counterexample): a timeseries request on a dataset with neither `actual` nor
`predicted` does NOT fail: `create_timeseries_plot` simply plots no series and saves the
figure (line 103), and `main` exits 0 — refuting the claim's "if neither column is present,
the request fails". -/
theorem timeseries_missing_both_counterexample :
    tNoColumns.hasCol "actual" = false ∧
    tNoColumns.hasCol "predicted" = false ∧
    (create_timeseries_plot tNoColumns).series = [] ∧
    (create_timeseries_plot tNoColumns).saved = true ∧
    runTimeseriesRequest tNoColumns = ⟨0, true, false⟩ := by
  decide

/-- C6 (amended): if exactly one of `actual` and `predicted` is present, the renderer plots
only the series that is present and the request succeeds; if neither column is present, the
request also succeeds, rendering a chart with no series. -/
theorem timeseries_present_series_rendered (t : Table) :
    (∀ a, t.getCol "actual" = some a → t.getCol "predicted" = none →
      (create_timeseries_plot t).series = [("Actual", a)] ∧
      runTimeseriesRequest t = ⟨0, true, false⟩) ∧
    (∀ p, t.getCol "predicted" = some p → t.getCol "actual" = none →
      (create_timeseries_plot t).series = [("Predicted", p)] ∧
      runTimeseriesRequest t = ⟨0, true, false⟩) ∧
    (t.getCol "actual" = none → t.getCol "predicted" = none →
      (create_timeseries_plot t).series = [] ∧
      runTimeseriesRequest t = ⟨0, true, false⟩) := by
  refine ⟨?_, ?_, ?_⟩
  · intro a hA hP
    have : create_timeseries_plot t = ⟨[("Actual", a)], true⟩ := by
      simp [create_timeseries_plot, hA, hP]
    exact ⟨by rw [this], by rw [runTimeseriesRequest, this]⟩
  · intro p hP hA
    have : create_timeseries_plot t = ⟨[("Predicted", p)], true⟩ := by
      simp [create_timeseries_plot, hA, hP]
    exact ⟨by rw [this], by rw [runTimeseriesRequest, this]⟩
  · intro hA hP
    have : create_timeseries_plot t = ⟨[], true⟩ := by
      simp [create_timeseries_plot, hA, hP]
    exact ⟨by rw [this], by rw [runTimeseriesRequest, this]⟩

/-- Witness for `timeseries_present_series_rendered` on a dataset with only an `actual` column. -/
theorem timeseries_present_series_rendered_witness :
    (create_timeseries_plot (Table.mk [("actual", [1, 2])])).series = [("Actual", [1, 2])] ∧
    runTimeseriesRequest (Table.mk [("actual", [1, 2])]) = ⟨0, true, false⟩ :=
  (timeseries_present_series_rendered (Table.mk [("actual", [1, 2])])).1 [1, 2] (by decide) (by decide)

/-! ## Renderer: importance (`create_importance_plot`, JSON-mapping branch, lines 119-132) -/

/-- Insertion of index `i` into an index list ordered by `scores`. -/
def insertIdx (scores : List ℚ) (i : ℕ) : List ℕ → List ℕ
  | [] => [i]
  | j :: rest =>
    if scores.getD i 0 ≤ scores.getD j 0 then i :: j :: rest
    else j :: insertIdx scores i rest

/-- `np.argsort(scores)` (line 127), modelled as an insertion sort of the index list
`range(len(scores))` by score.  The observable contract is that the result is a permutation
of the indices that orders the scores ascending; numpy's tie order (introsort) is not
otherwise observable in this renderer. -/
def argsort (scores : List ℚ) : List ℕ :=
  (List.range scores.length).foldr (insertIdx scores) []

theorem insertIdx_perm (scores : List ℚ) (i : ℕ) (l : List ℕ) :
    List.Perm (insertIdx scores i l) (i :: l) := by
  induction l with
  | nil => rfl
  | cons j rest ih =>
    rw [insertIdx]
    split
    · rfl
    · exact (ih.cons j).trans (List.Perm.swap i j rest)

theorem mem_insertIdx (scores : List ℚ) (i : ℕ) (l : List ℕ) (b : ℕ) :
    b ∈ insertIdx scores i l ↔ b = i ∨ b ∈ l := by
  rw [(insertIdx_perm scores i l).mem_iff, List.mem_cons]

theorem argsort_perm (scores : List ℚ) :
    List.Perm (argsort scores) (List.range scores.length) := by
  rw [argsort]
  generalize List.range scores.length = l
  induction l with
  | nil => rfl
  | cons a t ih =>
    exact ((insertIdx_perm scores a _).trans (ih.cons a)).trans (List.Perm.refl _)

theorem insertIdx_pairwise (scores : List ℚ) (i : ℕ) (l : List ℕ)
    (hl : l.Pairwise fun j k => scores.getD j 0 ≤ scores.getD k 0) :
    (insertIdx scores i l).Pairwise fun j k => scores.getD j 0 ≤ scores.getD k 0 := by
  induction l with
  | nil => simp [insertIdx]
  | cons j rest ih =>
    rw [insertIdx]
    rw [List.pairwise_cons] at hl
    split
    · rename_i hle
      refine List.pairwise_cons.mpr ⟨?_, List.pairwise_cons.mpr hl⟩
      intro b hb
      rcases List.mem_cons.mp hb with rfl | hbr
      · exact hle
      · exact le_trans hle (hl.1 b hbr)
    · rename_i hgt
      refine List.pairwise_cons.mpr ⟨?_, ih hl.2⟩
      intro b hb
      rcases (mem_insertIdx scores i rest b).mp hb with rfl | hbr
      · exact le_of_not_le hgt
      · exact hl.1 b hbr

theorem argsort_pairwise (scores : List ℚ) :
    (argsort scores).Pairwise fun j k => scores.getD j 0 ≤ scores.getD k 0 := by
  rw [argsort]
  generalize List.range scores.length = l
  induction l with
  | nil => simp
  | cons a t ih => exact insertIdx_pairwise scores a _ ih

/-- The horizontal bar chart drawn by the JSON-mapping branch of `create_importance_plot`
(lines 119-132): `pos`, the bar values and the y tick labels, plus the fact that the figure
is saved (line 144 sits outside the branch; no path raises on a parsed mapping). -/
structure BarChart where
  positions : List ℚ
  values : List ℚ
  ticks : List String
  saved : Bool
  deriving DecidableEq, Repr

/-- The JSON-mapping branch of `create_importance_plot` (lines 119-132), for a successfully
parsed name→score mapping `features` (`names = list(features.keys())`,
`scores = list(features.values())`, lines 123-124): `sorted_idx = np.argsort(scores)`,
`pos = np.arange(len(sorted_idx)) + .5`, bars `np.array(scores)[sorted_idx]` at `pos`, tick
labels `np.array(names)[sorted_idx]`.  The empty mapping yields empty arrays and still
renders. -/
def create_importance_plot (features : List (String × ℚ)) : BarChart :=
  let names := features.map Prod.fst
  let scores := features.map Prod.snd
  let sortedIdx := argsort scores
  ⟨(List.range sortedIdx.length).map fun i => (i : ℚ) + 1/2,
   sortedIdx.map fun j => scores.getD j 0,
   sortedIdx.map fun j => names.getD j "",
   true⟩

theorem range_map_getD_pair {α β : Type} (l : List (α × β)) (d : β) (d' : α) :
    (List.range l.length).map
      (fun j => ((l.map Prod.snd).getD j d, (l.map Prod.fst).getD j d')) =
      l.map fun p => (p.2, p.1) := by
  induction l with
  | nil => simp
  | cons a t ih =>
    rw [List.length_cons, List.range_succ_eq_map, List.map_cons, List.map_map]
    simp only [List.map_cons, List.getD_cons_zero, List.getD_cons_succ, List.map_cons]
    rw [Function.comp_def]
    simp only [List.getD_cons_succ]
    rw [ih]

/-- C5: for every name→score mapping given to the importance renderer, the bar values are
ordered ascending (monotonic non-decreasing), bar `i` sits at vertical position `i + 0.5`,
and the (value, tick-label) pairs are exactly the (score, name) pairs of the mapping
rearranged into sorted-by-score order; the empty mapping yields an empty, correctly labeled
chart, and every mapping (empty included) is rendered and saved rather than failing. -/
theorem create_importance_plot_sorted (features : List (String × ℚ)) :
    (create_importance_plot features).positions =
      (List.range features.length).map (fun i => (i : ℚ) + 1/2) ∧
    (create_importance_plot features).values.Pairwise (· ≤ ·) ∧
    List.Perm
      ((create_importance_plot features).values.zip (create_importance_plot features).ticks)
      (features.map fun p => (p.2, p.1)) ∧
    (features = [] → (create_importance_plot features).values = [] ∧
      (create_importance_plot features).ticks = [] ∧
      (create_importance_plot features).positions = []) ∧
    (create_importance_plot features).saved = true := by
  refine ⟨?_, ?_, ?_, ?_, rfl⟩
  · have hlen : (argsort (features.map Prod.snd)).length = features.length := by
      rw [(argsort_perm (features.map Prod.snd)).length_eq, List.length_range,
        List.length_map]
    rw [create_importance_plot]
    simp only
    rw [hlen]
  · apply List.pairwise_map.mpr
    exact argsort_pairwise (features.map Prod.snd)
  · rw [create_importance_plot]
    simp only
    rw [List.zip_map']
    have hperm := (argsort_perm (features.map Prod.snd)).map
      (fun j => ((features.map Prod.snd).getD j 0, (features.map Prod.fst).getD j ""))
    refine hperm.trans ?_
    rw [List.length_map]
    rw [range_map_getD_pair features 0 ""]
  · rintro rfl
    exact ⟨rfl, rfl, rfl⟩

/-- Witness for `create_importance_plot_sorted`, discharging its degenerate-case hypothesis
at the empty mapping, together with end-to-end scenario 2 (scores scaled by 10 to stay on
kernel-evaluable integer rationals): the mapping `a ↦ 2, b ↦ 9, c ↦ 5` is rendered with
tick order `a, c, b`. -/
theorem create_importance_plot_sorted_witness :
    (create_importance_plot [("a", 2), ("b", 9), ("c", 5)]).ticks = ["a", "c", "b"] ∧
    (create_importance_plot ([] : List (String × ℚ))).values = [] := by
  exact ⟨by decide, ((create_importance_plot_sorted ([] : List (String × ℚ))).2.2.2.1 rfl).1⟩

/-! ## Renderer: scatter (`create_scatter_plot`, lines 50-76) -/

/-- The "perfect prediction" reference line of `create_scatter_plot` (lines 62-64):
`min_val = min(actual.min(), predicted.min())`, `max_val = max(actual.max(),
predicted.max())`, drawn as `plt.plot([min_val, max_val], [min_val, max_val], ...)`, i.e.
the segment from `(min_val, min_val)` to `(max_val, max_val)`.  On an empty series pandas
`min`/`max` yield NaN rather than a number; that case is outside the contract and modelled
as `none`. -/
def scatterRefLine (actual predicted : List ℚ) : Option ((ℚ × ℚ) × (ℚ × ℚ)) :=
  if actual = [] ∨ predicted = [] then none
  else
    let min_val := min (listMinDQ actual) (listMinDQ predicted)
    let max_val := max (listMaxDQ actual) (listMaxDQ predicted)
    some ((min_val, min_val), (max_val, max_val))

/-- C8: for every scatter request with non-empty `actual` and `predicted` series, the
"perfect prediction" reference line has exactly the two endpoints `(m, m)` and `(M, M)`,
where `m` is the minimum over both series (it belongs to their union and bounds every value
from below) and `M` is the maximum over both. -/
theorem scatter_refline_endpoints (actual predicted : List ℚ)
    (ha : actual ≠ []) (hp : predicted ≠ []) :
    ∃ m M, scatterRefLine actual predicted = some ((m, m), (M, M)) ∧
      m ∈ actual ++ predicted ∧ M ∈ actual ++ predicted ∧
      ∀ x ∈ actual ++ predicted, m ≤ x ∧ x ≤ M := by
  refine ⟨min (listMinDQ actual) (listMinDQ predicted),
          max (listMaxDQ actual) (listMaxDQ predicted), ?_, ?_, ?_, ?_⟩
  · rw [scatterRefLine, if_neg (by simp [ha, hp])]
  · rcases min_choice (listMinDQ actual) (listMinDQ predicted) with h | h <;> rw [h]
    · exact List.mem_append_left _ (listMinDQ_mem ha)
    · exact List.mem_append_right _ (listMinDQ_mem hp)
  · rcases max_choice (listMaxDQ actual) (listMaxDQ predicted) with h | h <;> rw [h]
    · exact List.mem_append_left _ (listMaxDQ_mem ha)
    · exact List.mem_append_right _ (listMaxDQ_mem hp)
  · intro x hx
    rcases List.mem_append.mp hx with hxa | hxp
    · exact ⟨le_trans (min_le_left _ _) (listMinDQ_le hxa),
             le_trans (le_listMaxDQ hxa) (le_max_left _ _)⟩
    · exact ⟨le_trans (min_le_right _ _) (listMinDQ_le hxp),
             le_trans (le_listMaxDQ hxp) (le_max_right _ _)⟩

/-- Witness for `scatter_refline_endpoints`: `actual = [1, 3]`, `predicted = [2, 5]` gives
the reference line from `(1, 1)` to `(5, 5)`. -/
theorem scatter_refline_endpoints_witness :
    scatterRefLine [1, 3] [2, 5] = some ((1, 1), (5, 5)) ∧
    ∃ m M, scatterRefLine [1, 3] [2, 5] = some ((m, m), (M, M)) ∧ m ≤ 3 ∧ (3 : ℚ) ≤ M := by
  refine ⟨by decide, ?_⟩
  obtain ⟨m, M, heq, -, -, hb⟩ :=
    scatter_refline_endpoints [1, 3] [2, 5] (by decide) (by decide)
  exact ⟨m, M, heq, (hb 3 (by decide)).1, (hb 3 (by decide)).2⟩

/-! ## Layer-size parsing (`create_neural_network_architecture_plot`, lines 223-246) -/

/-- Whitespace accepted (and stripped) by Python's `int(str)`, restricted to the common
ASCII whitespace characters. -/
def isPySpace (c : Char) : Bool :=
  c == ' ' || c == '\t' || c == '\n' || c == '\r'

/-- Strip leading and trailing whitespace, as Python's `int(str)` does. -/
def stripChars (l : List Char) : List Char :=
  ((l.dropWhile isPySpace).reverse.dropWhile isPySpace).reverse

/-- A nonempty all-digit chunk evaluated as a decimal natural number; anything else is a
parse failure. -/
def parseDigits : List Char → Option ℕ
  | [] => none
  | ds =>
    if ds.all Char.isDigit then some (ds.foldl (fun acc c => 10 * acc + (c.toNat - 48)) 0)
    else none

/-- Python's `int(x)` on one chunk (line 232), modelled for ASCII inputs: surrounding
whitespace is stripped, an optional single sign precedes one or more decimal digits, and
everything else raises `ValueError` (`none`).  (Underscore digit grouping and non-ASCII
digits are not exercised by the callers and are not modelled.) -/
def pyIntOfChars (l : List Char) : Option ℤ :=
  match stripChars l with
  | '-' :: ds => (parseDigits ds).map fun n => -(n : ℤ)
  | '+' :: ds => (parseDigits ds).map fun n => (n : ℤ)
  | ds => (parseDigits ds).map fun n => (n : ℤ)

/-- `layer_sizes.split(',')` (line 232) on the raw argument characters; note that
`"".split(',') == ['']`, one empty chunk. -/
def splitCommas : List Char → List (List Char)
  | [] => [[]]
  | c :: rest =>
    if c = ',' then [] :: splitCommas rest
    else
      match splitCommas rest with
      | [] => [[c]]
      | chunk :: chunks => (c :: chunk) :: chunks

/-- `[int(x) for x in layer_sizes.split(',')]` (line 232): `none` when any chunk raises
`ValueError`. -/
def parseLayerSizes (s : List Char) : Option (List ℤ) :=
  (splitCommas s).mapM pyIntOfChars

/-- Lines 230-235: the parsed list, falling back to the built-in default `[4, 6, 5, 3]`
(line 235) when the comprehension raises `ValueError`. -/
def resolveLayerSizes (s : List Char) : List ℤ :=
  match parseLayerSizes s with
  | some l => l
  | none => [4, 6, 5, 3]

/-- `create_neural_network_architecture_plot(layer_sizes, ...)` (lines 223-246) for a string
argument: resolve the layer sizes, then `draw_neural_net(ax, 0, 1, 0, 1, layer_sizes)`
(line 238).  `none` models an exception propagating out of `draw_neural_net`. -/
def create_neural_network_architecture_plot (s : List Char) :
    Option (List Circle × List Segment) :=
  drawNeuralNet 0 1 0 1 (resolveLayerSizes s)

/-- The `nn_architecture` branch of `main` (lines 338-343, 352-357): exit 0 when the
renderer returns, exit 1 when it raises (the top-level `except`, line 355-357). -/
def nnArchExitCode (s : List Char) : ℕ :=
  if (create_neural_network_architecture_plot s).isSome then 0 else 1

/-- C7: for every `--layer_sizes` string that does not parse as a comma-delimited list of
integers, the request does not fail: the renderer falls back to the fixed default
`[4, 6, 5, 3]`, still produces an image, and the process exits 0. -/
theorem nn_parse_failure_falls_back (s : List Char)
    (hfail : parseLayerSizes s = none) :
    resolveLayerSizes s = [4, 6, 5, 3] ∧
    (∃ prims, create_neural_network_architecture_plot s = some prims) ∧
    nnArchExitCode s = 0 := by
  have hres : resolveLayerSizes s = [4, 6, 5, 3] := by
    rw [resolveLayerSizes, hfail]
  have hdraw : create_neural_network_architecture_plot s =
      some (nnCircles 0 (hSpacing 0 1 [4, 6, 5, 3]) (vSpacing 0 1 [4, 6, 5, 3]) 0 1
              [4, 6, 5, 3],
            nnEdges 0 (hSpacing 0 1 [4, 6, 5, 3]) (vSpacing 0 1 [4, 6, 5, 3]) 0 1
              [4, 6, 5, 3]) := by
    rw [create_neural_network_architecture_plot, hres]
    exact drawNeuralNet_eq_some 0 1 0 1 [4, 6, 5, 3] (by decide) (by decide)
  refine ⟨hres, ⟨_, hdraw⟩, ?_⟩
  rw [nnArchExitCode, hdraw]
  rfl

/-- Witness for `nn_parse_failure_falls_back` at the unparsable string `"abc"`. -/
theorem nn_parse_failure_falls_back_witness :
    parseLayerSizes ['a', 'b', 'c'] = none ∧
    resolveLayerSizes ['a', 'b', 'c'] = [4, 6, 5, 3] ∧
    nnArchExitCode ['a', 'b', 'c'] = 0 := by
  have h := nn_parse_failure_falls_back ['a', 'b', 'c'] (by decide)
  exact ⟨by decide, h.1, h.2.2⟩

/-- C10: the string `"5"` parses successfully to the single-layer list `[5]`, so the
fallback does not fire; `draw_neural_net` then computes
`h_spacing = (right - left) / float(n_layers - 1)` with `n_layers - 1 == 0` (line 203) and
no preceding length check, raising `ZeroDivisionError` (modelled by the `none` branch of
`drawNeuralNet`, which is guarded only by the division itself, not by any `L ≥ 2`
validation), and the top-level handler exits the process with code 1. -/
theorem nn_single_layer_divide_by_zero :
    parseLayerSizes ['5'] = some [5] ∧
    resolveLayerSizes ['5'] = [5] ∧
    ([5] : List ℤ).length = 1 ∧
    create_neural_network_architecture_plot ['5'] = none ∧
    nnArchExitCode ['5'] = 1 := by
  decide

/-! ## Effect of `main` on the source data file (lines 299-333) -/

/-- The contents of the `--data_file` source file when the process exits, as a function of
the selected plot type, the (possibly absent) `--features_json` argument, and the file's
original contents.  `main` reads the file (line 308) and then, in the `importance` branch
only, when `args.features_json` is truthy (a non-empty string), re-opens the SAME file in
write mode and overwrites it with the raw JSON string (lines 327-331):
`with open(data_file, 'w') as f: f.write(args.features_json)`.  No other branch writes to
the data file; the derived residual column (line 159) exists in the in-memory dataframe
only. -/
def mainDataFileAfter (plotType : String) (featuresJson : Option String)
    (contents : String) : String :=
  if plotType = "importance" then
    match featuresJson with
    | some j => if j = "" then contents else j
    | none => contents
  else contents

/-- C3 (evaluation at the failing input): an `importance` invocation with
`--features_json '\x7b"a": 0.2\x7d'` on a data file holding `x,y\n1,2\n` leaves the data
file holding the JSON string — the source file IS mutated, refuting the claim that it is
unchanged for every invocation and plot type.  Every other plot type leaves it unchanged. -/
theorem main_importance_overwrites_data_file :
    mainDataFileAfter "importance" (some "\x7b\"a\": 0.2\x7d") "x,y\n1,2\n" =
      "\x7b\"a\": 0.2\x7d" ∧
    mainDataFileAfter "importance" (some "\x7b\"a\": 0.2\x7d") "x,y\n1,2\n" ≠ "x,y\n1,2\n" ∧
    (∀ fj : Option String, mainDataFileAfter "residual" fj "x,y\n1,2\n" = "x,y\n1,2\n") := by
  refine ⟨by decide, by decide, ?_⟩
  intro fj
  rfl

end PlotRegression
